import Mathlib

/-!
Verification development for the Beanstalk-Py monitoring bots
(`src/python/bots/util.py`).

The Python source is shallowly embedded: pure helpers become Lean
functions, Python floats are modelled as exact rationals (`ℚ`),
fallible code returns `Except PyErr`, and the stateful monitor loops
become explicit state-passing step functions.  Helpers that live in the
`data_access.eth_chain` module (which is not part of this repository
snapshot) are modelled from the spec and marked as such in their doc
comments.
-/

/-! ## Python-style runtime errors

Python exceptions that the embedded code can raise.  `noneDeref` stands
for an `AttributeError` on `None` (dereferencing a missing value),
`nameError` for use of an unassigned local, `indexError` for indexing an
empty list. -/

inductive PyErr where
  | valueError
  | zeroDivisionError
  | noneDeref
  | nameError
  | indexError
deriving DecidableEq

/-! ## Constants (util.py lines 34-49) -/

/-- Time to wait before restarting a monitor after an unhandled exception
(util.py line 49). -/
def MONITOR_RESET_DELAY : Nat := 5

/-! ## Supervised poller (`Monitor._thread_wrapper_method`, util.py lines 96-112)

The loop state carries the `_thread_active` flag, the `retry_time`
watermark and a count of the exceptions logged so far.  One call of
`thread_wrapper_iter` is one pass through the `while` body at wall-clock
time `now`; `body` is the outcome of `self._monitor_method()` for that
pass (`Except.error` models a raised exception). -/

structure WrapperState where
  thread_active : Bool
  retry_time : Nat
  exceptions_logged : Nat
deriving DecidableEq

def thread_wrapper_iter (st : WrapperState) (now : Nat) (body : Except String Unit) :
    WrapperState :=
  if st.thread_active = false then st
  else if now < st.retry_time then st
  else
    match body with
    | Except.ok _ => { st with retry_time := now + MONITOR_RESET_DELAY }
    | Except.error _ =>
        { st with exceptions_logged := st.exceptions_logged + 1,
                  retry_time := now + MONITOR_RESET_DELAY }

def run_thread_wrapper (st : WrapperState) (steps : List (Nat × Except String Unit)) :
    WrapperState :=
  steps.foldl (fun s p => thread_wrapper_iter s p.1 p.2) st

/-! ## Peg-cross detector (`PegCrossMonitor`, util.py lines 115-202) -/

inductive PegCrossType where
  | NO_CROSS
  | CROSS_ABOVE
  | CROSS_BELOW
deriving DecidableEq

/-- One cross record from the Bean subgraph: an id, a timestamp and the
direction flag `above`. -/
structure CrossRecord where
  id : Nat
  timestamp : Nat
  above : Bool
deriving DecidableEq

/-- Classification of a single fetched cross record
(util.py lines 183-189). -/
def classifyCross (c : CrossRecord) : PegCrossType :=
  if c.above then PegCrossType.CROSS_ABOVE else PegCrossType.CROSS_BELOW

/-- Embedding of `PegCrossMonitor._check_for_peg_crosses` (util.py lines
144-190).  `last_cross` is the record returned by the graph client;
`get_last_crosses n` models `bean_graph_client.get_last_crosses(n=n)`;
`last_known_cross` is the monitor state.  Returns the updated state
and the list of cross types produced by the call. -/
def check_for_peg_crosses (last_cross : CrossRecord)
    (get_last_crosses : Nat → List CrossRecord)
    (last_known_cross : Option CrossRecord) :
    Option CrossRecord × List PegCrossType :=
  match last_known_cross with
  | none => (some last_cross, [PegCrossType.NO_CROSS])
  | some known =>
      if last_cross.timestamp ≤ known.timestamp then
        (some known, [PegCrossType.NO_CROSS])
      else
        let number_of_new_crosses : Int := (last_cross.id : Int) - (known.id : Int)
        let new_cross_list :=
          if number_of_new_crosses > 1 then get_last_crosses number_of_new_crosses.toNat
          else [last_cross]
        (some last_cross, new_cross_list.map classifyCross)

/-- The crosses the monitor actually emits: `_monitor_method` (util.py
lines 138-142) drops `NO_CROSS` entries before messaging. -/
def emitted_crosses (l : List PegCrossType) : List PegCrossType :=
  l.filter (fun c => c ≠ PegCrossType.NO_CROSS)

/-! ## Value-to-emoji tiering (`value_to_emojis`, util.py lines 609-621) -/

/-- Python `int()` on a float value: truncation toward zero, modelled on
the exact rational. -/
def pyInt (q : ℚ) : Int := q.num.tdiv (q.den : Int)

/-- Python `round(n, -k)` on a non-negative integer: round to the
nearest multiple of `m = 10^k`, ties to the even multiple
(banker's rounding). -/
def roundToMultiple (n m : Nat) : Nat :=
  let q := n / m
  let r := n % m
  if 2 * r < m then q * m
  else if m < 2 * r then (q + 1) * m
  else if q % 2 = 0 then q * m else (q + 1) * m

/-- Python `s * n` string repetition. -/
def repeatStr (s : String) : Nat → String
  | 0 => ""
  | n + 1 => s ++ repeatStr s n

/-- Core of `value_to_emojis` after the `int()` conversion (util.py lines
611-621).  The `if s = ""` test embeds Python's `'🐟' * k or '🐟'`
idiom (an empty product is falsy, so at least one fish is produced). -/
def value_to_emojis_int (value : Int) : String :=
  if value < 0 then ""
  else
    let v1 := roundToMultiple value.toNat 1000
    if v1 < 10000 then
      let s := repeatStr ("🐟") (v1 / 1000)
      if s = "" then ("🐟") else s
    else
      let v2 := roundToMultiple v1 10000
      if v2 < 100000 then repeatStr ("🦈") (v2 / 10000)
      else
        let v3 := roundToMultiple v2 100000
        repeatStr ("🐳") (v3 / 100000)

/-- Embedding of `value_to_emojis` (util.py lines 609-621). -/
def value_to_emojis (value : ℚ) : String := value_to_emojis_int (pyInt value)

/-! ## Numeric rendering (`round_num`, util.py lines 604-606)

Models Python `f'{float(number):,.{precision}f}'`: round to `precision`
decimals (ties to even, on the exact rational), thousands separators in
the integer part, zero-padded fraction. -/

def floorQ (q : ℚ) : Int := q.num.fdiv (q.den : Int)

def roundHalfEvenQ (q : ℚ) : Int :=
  let f := floorQ q
  let frac : ℚ := q - (f : ℚ)
  if frac < 1 / 2 then f
  else if 1 / 2 < frac then f + 1
  else if f % 2 = 0 then f else f + 1

/-- Insert thousands separators; the input is the digit list in reverse
(least-significant first) and the output is likewise reversed. -/
def commasRev : Nat → List Char → List Char
  | _, [] => []
  | k, c :: rest =>
      (if k ≠ 0 ∧ k % 3 = 0 then [',', c] else [c]) ++ commasRev (k + 1) rest

def natCommaString (n : Nat) : String :=
  String.mk ((commasRev 0 (toString n).data.reverse).reverse)

def padZeros (s : String) (n : Nat) : String :=
  String.mk (List.replicate (n - s.length) '0') ++ s

def round_num (number : ℚ) (precision : Nat) : String :=
  let scaled : ℚ := number * ((10 : ℚ) ^ precision)
  let r : Int := roundHalfEvenQ scaled
  let a : Nat := r.natAbs
  let ip : Nat := a / 10 ^ precision
  let fp : Nat := a % 10 ^ precision
  let fracStr := if precision = 0 then ("") else (".") ++ padZeros (toString fp) precision
  (if r < 0 then ("-") else ("")) ++ natCommaString ip ++ fracStr

/-! ## Raw event logs and argument access -/

/-- A web3 Event Log Object as used by the monitors: the event kind tag,
the log position within the transaction, the named integer arguments
and the transaction hash (already in hex-string form, standing for
`transactionHash.hex()`). -/
structure EventLog where
  event : String
  logIndex : Nat
  args : List (String × Int)
  transactionHash : String
deriving DecidableEq

/-- Python `event_log.args.get(key)`. -/
def argsGet (args : List (String × Int)) (key : String) : Option Int :=
  (args.find? (fun p => p.1 == key)).map (fun p => p.2)

/-! ## eth_chain helpers (module `data_access.eth_chain`, not in this
repository snapshot) -/

/-- Modelled from the spec: the chain-data module converts raw integer
token amounts into floats; per util.py line 362 ("Not all will be
populated") absent fields are tolerated and treated as a zero amount.
ETH uses 18 decimals. -/
def eth_to_float (amount : Option Int) : ℚ :=
  match amount with
  | none => 0
  | some n => (n : ℚ) / 1000000000000000000

/-- Modelled from the spec: BEAN uses 6 decimals; absent fields are a
zero amount. -/
def bean_to_float (amount : Option Int) : ℚ :=
  match amount with
  | none => 0
  | some n => (n : ℚ) / 1000000

/-- Modelled from the spec: Uniswap V2 LP tokens use 18 decimals; absent
fields are a zero amount. -/
def lp_to_float (amount : Option Int) : ℚ :=
  match amount with
  | none => 0
  | some n => (n : ℚ) / 1000000000000000000

/-- Modelled from the spec: the average execution price of a swap,
derived from the swapped ETH amount, the swapped BEAN amount and the
current ETH reference price (spec section 4.5). -/
def avg_swap_price (eth_amount bean_amount eth_price : ℚ) : ℚ :=
  eth_price * eth_amount / bean_amount

/-! ## Season stats and LP-to-underlying conversion
(`lp_eq_values`, util.py lines 577-601) -/

/-- The pool-reserve fields of a season-stats record from the Beanstalk
subgraph that `lp_eq_values` reads. -/
structure SeasonStats where
  pooledEth : ℚ
  pooledBeans : ℚ
  lp : ℚ
deriving DecidableEq

/-- Embedding of `lp_eq_values` (util.py lines 577-601).  A `none`
argument is Python `None`.  A division with a zero `total_lp`
denominator raises `ZeroDivisionError` in Python (floats included), so
the embedding returns `Except.error PyErr.zeroDivisionError` there; the
missing-argument `ValueError` check happens first, as in the source. -/
def lp_eq_values (lp : ℚ) (total_lp pooled_eth pooled_beans : Option ℚ)
    (beanstalk_graph_client : Option SeasonStats) : Except PyErr (ℚ × ℚ) :=
  let resolved :=
    match beanstalk_graph_client with
    | some stats => (some stats.lp, some stats.pooledEth, some stats.pooledBeans)
    | none => (total_lp, pooled_eth, pooled_beans)
  match resolved with
  | (some tl, some pe, some pb) =>
      if tl = 0 then Except.error PyErr.zeroDivisionError
      else Except.ok (lp * (pe / tl), lp * (pb / tl))
  | _ => Except.error PyErr.valueError

/-! ## Signature matching (`multi_sig_compare`, util.py lines 567-575) -/

/-- Embedding of `multi_sig_compare`: compare on the 9-character prefix
(`signature[:9] == sig[:9]`). -/
def multi_sig_compare (signature : String) (signatures : List String) : Bool :=
  signatures.any (fun sig => signature.take 9 == sig.take 9)

/-! ## Shared string tails of the renderers -/

/-- The etherscan reference link every renderer appends
(`f'\n<https://etherscan.io/tx/{...hash...}>'`). -/
def etherscanLink (txHash : String) : String :=
  ("\n<https://etherscan.io/tx/") ++ txHash ++ (">")

/-- The literal "empty line that does not get stripped" marker. -/
def blankLineMarker : String := "\n_ _"

/-! ## Pool event renderer (`default_pool_event_str`, util.py lines
360-403) -/

/-- The tail of `default_pool_event_str`: the early `return ''` (a
`none` body) versus the fall-through to the link and blank-line suffix
(util.py lines 395 and 400-403). -/
def pool_event_finish (body : Option String) (txHash : String) : String :=
  match body with
  | none => ("")
  | some b => b ++ etherscanLink txHash ++ blankLineMarker

/-- Embedding of `default_pool_event_str`.  The prices stand for
`blockchain_client.current_eth_and_bean_price()`.  The inner
`Option String` is `none` exactly on the early `return ''` of the
unexpected-Swap-arguments branch (util.py lines 393-395); every other
path falls through to the link and blank-line suffix. -/
def default_pool_event_str (event_log : EventLog) (eth_price bean_price : ℚ) : String :=
  let eth_amount := eth_to_float (argsGet event_log.args ("amount0"))
  let bean_amount := bean_to_float (argsGet event_log.args ("amount1"))
  let eth_in := eth_to_float (argsGet event_log.args ("amount0In"))
  let eth_out := eth_to_float (argsGet event_log.args ("amount0Out"))
  let bean_in := bean_to_float (argsGet event_log.args ("amount1In"))
  let bean_out := bean_to_float (argsGet event_log.args ("amount1Out"))
  let body : Option String :=
    if event_log.event = ("Mint") ∨ event_log.event = ("Burn") then
      let e1 :=
        if event_log.event = ("Mint") then
          ("📥 LP added - ") ++ round_num bean_amount 2 ++ (" Beans and ")
            ++ round_num eth_amount 4 ++ (" ETH")
        else ("")
      let e2 :=
        if event_log.event = ("Burn") then
          e1 ++ ("📤 LP removed - ") ++ round_num bean_amount 2 ++ (" Beans and ")
            ++ round_num eth_amount 4 ++ (" ETH")
        else e1
      let lp_value := bean_amount * bean_price * 2
      some (e2 ++ (" ($") ++ round_num lp_value 2 ++ (")")
        ++ ("\n") ++ value_to_emojis lp_value)
    else if event_log.event = ("Swap") then
      if eth_in > 0 then
        let swap_price := avg_swap_price eth_in bean_out eth_price
        let swap_value := swap_price * bean_out
        some (("📗 ") ++ round_num bean_out 2 ++ (" Beans bought for ")
          ++ round_num eth_in 4 ++ (" ETH")
          ++ (" @ $") ++ round_num swap_price 4 ++ (" ($") ++ round_num swap_value 2 ++ (")")
          ++ ("  -  Latest block price is $") ++ round_num bean_price 4
          ++ ("\n") ++ value_to_emojis swap_value)
      else if bean_in > 0 then
        let swap_price := avg_swap_price eth_out bean_in eth_price
        let swap_value := swap_price * bean_in
        some (("📕 ") ++ round_num bean_in 2 ++ (" Beans sold for ")
          ++ round_num eth_out 4 ++ (" ETH")
          ++ (" @ $") ++ round_num swap_price 4 ++ (" ($") ++ round_num swap_value 2 ++ (")")
          ++ ("  -  Latest block price is $") ++ round_num bean_price 4
          ++ ("\n") ++ value_to_emojis swap_value)
      else none
    else some ("")
  pool_event_finish body event_log.transactionHash

/-! ## Beanstalk event renderer (`default_beanstalk_event_str`, util.py
lines 467-515) -/

/-- Embedding of `default_beanstalk_event_str`.  The returned `Bool` is
true exactly when the source logs its "Unexpected event log" warning
(util.py lines 507-510).  The unconditional `lp_eq_values` call with the
graph client (util.py lines 472-473) can raise, hence the `Except`. -/
def default_beanstalk_event_str (event_log : EventLog) (eth_price bean_price : ℚ)
    (stats : SeasonStats) : Except PyErr (String × Bool) :=
  let lp_amount := lp_to_float (argsGet event_log.args ("lp"))
  match lp_eq_values lp_amount none none none (some stats) with
  | Except.error e => Except.error e
  | Except.ok (lp_eth, lp_beans) =>
    let lp_value := lp_eth * eth_price + lp_beans * bean_price
    let beans_amount := bean_to_float (argsGet event_log.args ("beans"))
    let beans_value := beans_amount * bean_price
    let pods_amount := bean_to_float (argsGet event_log.args ("pods"))
    if event_log.event = ("BeanRemove") ∨ event_log.event = ("LPRemove") then
      Except.ok (("") , false)
    else if event_log.event = ("LPDeposit") ∨ event_log.event = ("LPWithdraw")
        ∨ event_log.event = ("LPClaim") then
      let e1 :=
        if event_log.event = ("LPDeposit") then ("📥 LP deposited")
        else if event_log.event = ("LPWithdraw") then ("📭 LP withdrawn")
        else if event_log.event = ("LPClaim") then ("🛍 LP claimed")
        else ("")
      let e2 := e1 ++ (" - ") ++ round_num lp_beans 2 ++ (" Beans and ")
        ++ round_num lp_eth 4 ++ (" ETH ($") ++ round_num lp_value 2 ++ (")")
        ++ ("\n") ++ value_to_emojis lp_value
      Except.ok (e2 ++ etherscanLink event_log.transactionHash ++ blankLineMarker, false)
    else if event_log.event = ("BeanDeposit") ∨ event_log.event = ("BeanWithdraw")
        ∨ event_log.event = ("BeanClaim") then
      let e1 :=
        if event_log.event = ("BeanDeposit") then ("📥 Beans deposited")
        else if event_log.event = ("BeanWithdraw") then ("📭 Beans withdrawn")
        else if event_log.event = ("BeanClaim") then ("🛍 Beans claimed")
        else ("")
      let e2 := e1 ++ (" - ") ++ round_num beans_amount 2 ++ (" Beans ($")
        ++ round_num beans_value 2 ++ (")")
        ++ ("\n") ++ value_to_emojis beans_value
      Except.ok (e2 ++ etherscanLink event_log.transactionHash ++ blankLineMarker, false)
    else if event_log.event = ("Sow") then
      let e2 := ("🚜 ") ++ round_num beans_amount 2 ++ (" Beans sown for ")
        ++ round_num pods_amount 2 ++ (" Pods ($") ++ round_num beans_value 2 ++ (")")
        ++ ("\n") ++ value_to_emojis beans_value
      Except.ok (e2 ++ etherscanLink event_log.transactionHash ++ blankLineMarker, false)
    else
      Except.ok (("") , true)

/-! ## Silo conversion renderer (`silo_conversion_str`, util.py lines
517-565)

The Python function iterates over the event-log list assigning locals
(`beans_converted`, `lp_converted`, ...) that start out unassigned
(except `beans_converted`/`lp_converted`, initialized to `None`), then
builds the final string from them.  The embedding keeps all locals in a
record of `Option ℚ` and raises `nameError` where Python would raise
`NameError` on an unassigned local.  The list element type is
`Option EventLog` because `BeanstalkMonitor._handle_txn_logs` appends
`last_bean_deposit`, which can be Python `None`; touching such an
element raises `noneDeref`. -/

structure SiloLocals where
  beans_converted : Option ℚ
  lp_converted : Option ℚ
  lp_converted_eth : Option ℚ
  lp_converted_beans : Option ℚ
  beans_deposited : Option ℚ
  lp_deposited_eth : Option ℚ
  lp_deposited_beans : Option ℚ
  value : Option ℚ
deriving DecidableEq

def initSiloLocals : SiloLocals := ⟨none, none, none, none, none, none, none, none⟩

/-- Python truthiness of a float-or-None local: `None` and `0.0` are
falsy. -/
def truthyQ : Option ℚ → Bool
  | none => false
  | some x => x ≠ 0

/-- The per-log body of the `for event_log in event_logs` loop of
`silo_conversion_str` (util.py lines 527-550). -/
def silo_log_step (bean_price : ℚ) (stats : SeasonStats) (st : SiloLocals)
    (event_log : EventLog) : Except PyErr SiloLocals :=
  let afterRemove : Except PyErr SiloLocals :=
    if event_log.event = ("BeanRemove") then
      let bc := bean_to_float (argsGet event_log.args ("beans"))
      Except.ok { st with beans_converted := some bc, value := some (bc * bean_price) }
    else if event_log.event = ("LPRemove") then
      let lc := lp_to_float (argsGet event_log.args ("lp"))
      match lp_eq_values lc none none none (some stats) with
      | Except.error e => Except.error e
      | Except.ok (ce, cb) =>
          Except.ok { st with lp_converted := some lc, lp_converted_eth := some ce,
                              lp_converted_beans := some cb }
    else Except.ok st
  match afterRemove with
  | Except.error e => Except.error e
  | Except.ok st1 =>
    if event_log.event = ("BeanDeposit") then
      let bd := bean_to_float (argsGet event_log.args ("beans"))
      Except.ok { st1 with beans_deposited := some bd, value := some (bd * bean_price) }
    else if event_log.event = ("LPDeposit") then
      let ld := lp_to_float (argsGet event_log.args ("lp"))
      match lp_eq_values ld none none none (some stats) with
      | Except.error e => Except.error e
      | Except.ok (de, db) =>
          Except.ok { st1 with lp_deposited_eth := some de, lp_deposited_beans := some db,
                               value := some (db * 2 * bean_price) }
    else Except.ok st1

/-- The whole loop of `silo_conversion_str`; a `none` list entry is the
appended Python `None` and raises on access. -/
def silo_fold (bean_price : ℚ) (stats : SeasonStats) :
    SiloLocals → List (Option EventLog) → Except PyErr SiloLocals
  | st, [] => Except.ok st
  | _, none :: _ => Except.error PyErr.noneDeref
  | st, some l :: rest =>
      match silo_log_step bean_price stats st l with
      | Except.error e => Except.error e
      | Except.ok st1 => silo_fold bean_price stats st1 rest

/-- The final `event_str` construction of `silo_conversion_str`
(util.py lines 555-561), before the emoji row and link are appended. -/
def silo_event_str_body (st : SiloLocals) : Except PyErr String :=
  if truthyQ st.beans_converted then
    match st.beans_converted, st.lp_deposited_eth, st.lp_deposited_beans, st.value with
    | some bc, some de, some db, some v =>
        Except.ok (("🔃 ") ++ round_num bc 2 ++ (" siloed Beans converted to ")
          ++ round_num de 4 ++ (" ETH & ") ++ round_num db 2 ++ (" Beans of LP ($")
          ++ round_num v 2 ++ (")"))
    | _, _, _, _ => Except.error PyErr.nameError
  else if truthyQ st.lp_converted then
    match st.lp_converted_eth, st.lp_converted_beans, st.beans_deposited, st.value with
    | some ce, some cb, some bd, some v =>
        Except.ok (("🔄 ") ++ round_num ce 4 ++ (" ETH and ") ++ round_num cb 2
          ++ (" Beans of siloed LP converted to ") ++ round_num bd 2
          ++ (" siloed Beans ($") ++ round_num v 2 ++ (")"))
    | _, _, _, _ => Except.error PyErr.nameError
  else Except.error PyErr.nameError

/-- Embedding of `silo_conversion_str` (util.py lines 517-565).  Note
that, unlike the other two renderers, the source appends only the
etherscan link — no `'\n_ _'` blank-line marker. -/
def silo_conversion_str (event_logs : List (Option EventLog)) (bean_price : ℚ)
    (stats : SeasonStats) : Except PyErr String :=
  match silo_fold bean_price stats initSiloLocals event_logs with
  | Except.error e => Except.error e
  | Except.ok st =>
    match silo_event_str_body st, st.value, event_logs.head? with
    | Except.error e, _, _ => Except.error e
    | Except.ok _, none, _ => Except.error PyErr.nameError
    | Except.ok _, some _, none => Except.error PyErr.indexError
    | Except.ok _, some _, some none => Except.error PyErr.noneDeref
    | Except.ok body, some v, some (some l) =>
        Except.ok (body ++ ("\n") ++ value_to_emojis v
          ++ etherscanLink l.transactionHash)

/-! ## Protocol monitor transaction handler
(`BeanstalkMonitor._handle_txn_logs`, util.py lines 425-465) -/

/-- The `last_bean_deposit` selection loop (util.py lines 435-441):
keep the `BeanDeposit` log with the strictly greatest `logIndex` seen so
far. -/
def pickLaterDeposit (acc : Option EventLog) (l : EventLog) : Option EventLog :=
  if l.event = ("BeanDeposit") then
    match acc with
    | none => some l
    | some b => if l.logIndex > b.logIndex then some l else some b
  else acc

def lastBeanDeposit (logs : List EventLog) : Option EventLog :=
  logs.foldl pickLaterDeposit none

/-- The pruned log list: all `BeanDeposit` logs removed (util.py lines
442-445; `list.remove` is called once per collected deposit log, which
deletes every `BeanDeposit` occurrence). -/
def pruneBeanDeposits (logs : List EventLog) : List EventLog :=
  logs.filter (fun l => l.event ≠ ("BeanDeposit"))

/-- The per-log sending loop of the non-conversion path (util.py lines
462-465): each rendered string is pushed via `message_function`
unconditionally; a `none` entry or a renderer exception aborts the loop
with the corresponding error, keeping the messages already pushed. -/
def beanstalk_emit_loop (eth_price bean_price : ℚ) (stats : SeasonStats) :
    List (Option EventLog) → List String × Option PyErr
  | [] => ([], none)
  | none :: _ => ([], some PyErr.noneDeref)
  | some l :: rest =>
      match default_beanstalk_event_str l eth_price bean_price stats with
      | Except.error e => ([], some e)
      | Except.ok (s, _) =>
          let tail := beanstalk_emit_loop eth_price bean_price stats rest
          (s :: tail.1, tail.2)

/-- Embedding of `BeanstalkMonitor._handle_txn_logs` (util.py lines
425-465).  `txn_input` is `transaction['input']`; the signature lists
stand for `eth_chain.silo_conversion_sigs` and
`eth_chain.bean_deposit_sigs`.  The result is the list of strings pushed
to `message_function`, paired with the Python exception that escaped the
handler, if any. -/
def beanstalk_handle_txn_logs (txn_input : String)
    (silo_conversion_sigs bean_deposit_sigs : List String)
    (eth_price bean_price : ℚ) (stats : SeasonStats) (event_logs : List EventLog) :
    List String × Option PyErr :=
  let txn_method_sig_pfx := txn_input.take 9
  let last_bean_deposit := lastBeanDeposit event_logs
  let pruned := pruneBeanDeposits event_logs
  if multi_sig_compare txn_method_sig_pfx silo_conversion_sigs then
    match silo_conversion_str (pruned.map some ++ [last_bean_deposit]) bean_price stats with
    | Except.ok s => ([s], none)
    | Except.error e => ([], some e)
  else if multi_sig_compare txn_method_sig_pfx bean_deposit_sigs then
    beanstalk_emit_loop eth_price bean_price stats (pruned.map some ++ [last_bean_deposit])
  else
    beanstalk_emit_loop eth_price bean_price stats (pruned.map some)

/-! ## Analysis-side definitions

These do not embed source code: they state properties from the spec's
wording, to be compared with the embedded functions. -/

/-- Boolean suffix test on strings (used to state "ends with ..."). -/
def strEndsWith (s suffix : String) : Bool :=
  suffix.data.isSuffixOf s.data

/-- The magnitude expressed by the emoji tiering: tier-1 counts map to
1-9, tier-2 counts to 10-18, tier-3 counts to 19 and beyond; negative
values have magnitude 0.  `magOfRound` is the magnitude as a function of
the value already rounded to the nearest 1,000. -/
def magOfRound (r1 : Nat) : Nat :=
  if r1 < 10000 then (if r1 / 1000 = 0 then 1 else r1 / 1000)
  else
    let r2 := roundToMultiple r1 10000
    if r2 < 100000 then 9 + r2 / 10000
    else 18 + roundToMultiple r2 100000 / 100000

def emojiMagnitude (value : Int) : Nat :=
  if value < 0 then 0 else magOfRound (roundToMultiple value.toNat 1000)

/-- Rendering of a magnitude as an emoji string. -/
def renderMagnitude (m : Nat) : String :=
  if m = 0 then ("")
  else if m ≤ 9 then repeatStr ("🐟") m
  else if m ≤ 18 then repeatStr ("🦈") (m - 9)
  else repeatStr ("🐳") (m - 18)

/-- Stated from the wording of claim C5: negative values render empty;
otherwise, with `r` the value rounded to the nearest 1,000, values whose
`r` is below 10,000 render one tier-1 symbol per full thousand of `r`,
with a minimum of one symbol for any positive value (the claim asserts
the minimum only for positive values); higher values follow the tier-2
and tier-3 rules. -/
def claimed_value_to_emojis (v : Int) : String :=
  if v < 0 then ("")
  else
    let r := roundToMultiple v.toNat 1000
    if r < 10000 then
      if 0 < v then repeatStr ("🐟") (max 1 (r / 1000))
      else repeatStr ("🐟") (r / 1000)
    else
      let r2 := roundToMultiple r 10000
      if r2 < 100000 then repeatStr ("🦈") (r2 / 10000)
      else repeatStr ("🐳") (roundToMultiple r2 100000 / 100000)

/-- Claim C5 amended: the tier-1 minimum of one symbol applies to every
non-negative value (the source also renders one fish for value 0). -/
def amended_value_to_emojis (v : Int) : String :=
  if v < 0 then ("")
  else
    let r := roundToMultiple v.toNat 1000
    if r < 10000 then repeatStr ("🐟") (max 1 (r / 1000))
    else
      let r2 := roundToMultiple r 10000
      if r2 < 100000 then repeatStr ("🦈") (r2 / 10000)
      else repeatStr ("🐳") (roundToMultiple r2 100000 / 100000)

/-! ## Helper lemmas -/

theorem thread_wrapper_iter_thread_active (st : WrapperState) (now : Nat)
    (body : Except String Unit) :
    (thread_wrapper_iter st now body).thread_active = st.thread_active := by
  unfold thread_wrapper_iter
  split
  · rfl
  · split
    · rfl
    · cases body <;> rfl

theorem run_thread_wrapper_thread_active (steps : List (Nat × Except String Unit)) :
    ∀ st : WrapperState, (run_thread_wrapper st steps).thread_active = st.thread_active := by
  induction steps with
  | nil => intro st; rfl
  | cons p rest ih =>
      intro st
      show (run_thread_wrapper (thread_wrapper_iter st p.1 p.2) rest).thread_active = _
      rw [ih, thread_wrapper_iter_thread_active]

/-- Unfolding equation for `check_for_peg_crosses` on an initialized
state. -/
theorem check_for_peg_crosses_some (last_cross known : CrossRecord)
    (get_last_crosses : Nat → List CrossRecord) :
    check_for_peg_crosses last_cross get_last_crosses (some known)
      = if last_cross.timestamp ≤ known.timestamp then
          (some known, [PegCrossType.NO_CROSS])
        else
          (some last_cross,
            (if ((last_cross.id : Int) - (known.id : Int)) > 1 then
                get_last_crosses ((last_cross.id : Int) - (known.id : Int)).toNat
              else [last_cross]).map classifyCross) := rfl

theorem classifyCross_ne_no_cross (c : CrossRecord) :
    classifyCross c ≠ PegCrossType.NO_CROSS := by
  unfold classifyCross
  split <;> simp

theorem emitted_crosses_map_classify (l : List CrossRecord) :
    emitted_crosses (l.map classifyCross) = l.map classifyCross := by
  unfold emitted_crosses
  rw [List.filter_eq_self]
  intro a ha
  simp only [List.mem_map] at ha
  obtain ⟨c, _, rfl⟩ := ha
  simpa using classifyCross_ne_no_cross c

/-- C1: if an invocation of the polling body raises, the supervised
poller catches it at the loop boundary: the exception is logged (the log
count increments), the loop's active flag is never changed by any
sequence of body outcomes (the loop is not terminated and will run the
body again while active), the next invocation is scheduled a fixed
`MONITOR_RESET_DELAY = 5` seconds later, and invocations before the
reset time leave the state untouched; in particular after any finite
list of failing invocations followed by a succeeding one the loop is
still running. -/
theorem monitor_crash_isolation :
    MONITOR_RESET_DELAY = 5 ∧
    (∀ (st : WrapperState) (steps : List (Nat × Except String Unit)),
      (run_thread_wrapper st steps).thread_active = st.thread_active) ∧
    (∀ (st : WrapperState) (now : Nat) (e : String),
      st.thread_active = true → st.retry_time ≤ now →
        (thread_wrapper_iter st now (Except.error e)).exceptions_logged
            = st.exceptions_logged + 1 ∧
          (thread_wrapper_iter st now (Except.error e)).retry_time
            = now + MONITOR_RESET_DELAY ∧
          (thread_wrapper_iter st now (Except.error e)).thread_active = true) ∧
    (∀ (st : WrapperState) (now : Nat) (body : Except String Unit),
      now < st.retry_time → thread_wrapper_iter st now body = st) ∧
    (∀ (st : WrapperState) (failures : List (Nat × Except String Unit)) (t : Nat),
      st.thread_active = true →
        (run_thread_wrapper st (failures ++ [(t, Except.ok ())])).thread_active = true) := by
  refine ⟨rfl, fun st steps => run_thread_wrapper_thread_active steps st, ?_, ?_, ?_⟩
  · intro st now e h1 h2
    have h3 : ¬ now < st.retry_time := Nat.not_lt.mpr h2
    simp [thread_wrapper_iter, h1, h3]
  · intro st now body h
    unfold thread_wrapper_iter
    by_cases ha : st.thread_active = false
    · rw [if_pos ha]
    · rw [if_neg ha, if_pos h]
  · intro st failures t h
    rw [run_thread_wrapper_thread_active, h]

/-- C1 witness: a concrete failing invocation increments the log count,
reschedules five seconds later and keeps the loop alive; an early tick
is a no-op; three failures followed by a success leave the loop
running. -/
theorem monitor_crash_isolation_witness :
    ((thread_wrapper_iter ⟨true, 0, 0⟩ 7 (Except.error ("boom"))).exceptions_logged = 0 + 1 ∧
      (thread_wrapper_iter ⟨true, 0, 0⟩ 7 (Except.error ("boom"))).retry_time
        = 7 + MONITOR_RESET_DELAY ∧
      (thread_wrapper_iter ⟨true, 0, 0⟩ 7 (Except.error ("boom"))).thread_active = true) ∧
    thread_wrapper_iter ⟨true, 9, 1⟩ 3 (Except.ok ()) = ⟨true, 9, 1⟩ ∧
    (run_thread_wrapper ⟨true, 0, 0⟩
        ([(0, Except.error ("a")), (6, Except.error ("b")), (12, Except.error ("c"))]
          ++ [(18, Except.ok ())])).thread_active = true :=
  ⟨monitor_crash_isolation.2.2.1 ⟨true, 0, 0⟩ 7 ("boom") rfl (by decide),
   monitor_crash_isolation.2.2.2.1 ⟨true, 9, 1⟩ 3 (Except.ok ()) (by decide),
   monitor_crash_isolation.2.2.2.2 ⟨true, 0, 0⟩ _ 18 rfl⟩

/-- C2: the peg-cross detector emits nothing on its very first fetch
(state only initialized), nothing when the latest record is not newer
than the stored one, one classified cross per fetched record — above
maps to CROSS_ABOVE, otherwise CROSS_BELOW — in fetch order; when the
id delta exceeds 1 it requests exactly delta records from the source and
emits delta classified crosses, and when the delta is 1 it emits exactly
the one latest cross. -/
theorem peg_cross_detection_spec :
    (∀ c : CrossRecord,
      (c.above = true → classifyCross c = PegCrossType.CROSS_ABOVE) ∧
      (c.above = false → classifyCross c = PegCrossType.CROSS_BELOW)) ∧
    (∀ (last_cross : CrossRecord) (run : Nat → List CrossRecord),
      check_for_peg_crosses last_cross run none
          = (some last_cross, [PegCrossType.NO_CROSS]) ∧
        emitted_crosses (check_for_peg_crosses last_cross run none).2 = []) ∧
    (∀ (last_cross known : CrossRecord) (run : Nat → List CrossRecord),
      last_cross.timestamp ≤ known.timestamp →
        emitted_crosses (check_for_peg_crosses last_cross run (some known)).2 = []) ∧
    (∀ (last_cross known : CrossRecord) (run : Nat → List CrossRecord),
      known.timestamp < last_cross.timestamp →
      known.id < last_cross.id →
      1 < last_cross.id - known.id →
      (run (last_cross.id - known.id)).length = last_cross.id - known.id →
        (check_for_peg_crosses last_cross run (some known)).1 = some last_cross ∧
        (check_for_peg_crosses last_cross run (some known)).2
          = (run (last_cross.id - known.id)).map classifyCross ∧
        emitted_crosses (check_for_peg_crosses last_cross run (some known)).2
          = (run (last_cross.id - known.id)).map classifyCross ∧
        (emitted_crosses (check_for_peg_crosses last_cross run (some known)).2).length
          = last_cross.id - known.id) ∧
    (∀ (last_cross known : CrossRecord) (run : Nat → List CrossRecord),
      known.timestamp < last_cross.timestamp →
      last_cross.id = known.id + 1 →
        (check_for_peg_crosses last_cross run (some known)).1 = some last_cross ∧
        emitted_crosses (check_for_peg_crosses last_cross run (some known)).2
          = [classifyCross last_cross]) := by
  refine ⟨?_, ?_, ?_, ?_, ?_⟩
  · intro c
    constructor <;> intro h <;> simp [classifyCross, h]
  · intro last_cross run
    exact ⟨rfl, rfl⟩
  · intro last_cross known run h
    simp [check_for_peg_crosses, h, emitted_crosses]
  · intro last_cross known run ht hid hdelta hlen
    have hnotle : ¬ last_cross.timestamp ≤ known.timestamp := Nat.not_le.mpr ht
    have hgt : ((last_cross.id : Int) - (known.id : Int)) > 1 := by omega
    have htn : ((last_cross.id : Int) - (known.id : Int)).toNat
        = last_cross.id - known.id := by omega
    have hres : check_for_peg_crosses last_cross run (some known)
        = (some last_cross, (run (last_cross.id - known.id)).map classifyCross) := by
      rw [check_for_peg_crosses_some, if_neg hnotle, if_pos hgt, htn]
    refine ⟨by rw [hres], by rw [hres], ?_, ?_⟩
    · rw [hres]
      exact emitted_crosses_map_classify _
    · rw [hres]
      show (emitted_crosses ((run _).map classifyCross)).length = _
      rw [emitted_crosses_map_classify, List.length_map, hlen]
  · intro last_cross known run ht hid
    have hnotle : ¬ last_cross.timestamp ≤ known.timestamp := Nat.not_le.mpr ht
    have hng : ¬ ((last_cross.id : Int) - (known.id : Int)) > 1 := by omega
    have hres : check_for_peg_crosses last_cross run (some known)
        = (some last_cross, [last_cross].map classifyCross) := by
      rw [check_for_peg_crosses_some, if_neg hnotle, if_neg hng]
    refine ⟨by rw [hres], ?_⟩
    rw [hres]
    exact emitted_crosses_map_classify [last_cross]

/-- C2 witness: stored cross id 1, latest id 3: the detector asks for
the run of length 2 and emits CROSS_BELOW then CROSS_ABOVE, in order. -/
theorem peg_cross_detection_spec_witness :
    (check_for_peg_crosses ⟨3, 300, true⟩
        (fun _ => [⟨2, 200, false⟩, ⟨3, 300, true⟩]) (some ⟨1, 100, true⟩)).2
      = [PegCrossType.CROSS_BELOW, PegCrossType.CROSS_ABOVE] := by
  have h := peg_cross_detection_spec.2.2.2.1 ⟨3, 300, true⟩ ⟨1, 100, true⟩
    (fun _ => [⟨2, 200, false⟩, ⟨3, 300, true⟩]) (by decide) (by decide) (by decide)
    (by decide)
  exact h.2.1.trans (by decide)

theorem roundToMultiple_step_1000 (n : Nat) :
    roundToMultiple n 1000 ≤ roundToMultiple (n + 1) 1000 := by
  simp only [roundToMultiple]
  split_ifs <;> omega

theorem roundToMultiple_step_10000 (n : Nat) :
    roundToMultiple n 10000 ≤ roundToMultiple (n + 1) 10000 := by
  simp only [roundToMultiple]
  split_ifs <;> omega

theorem roundToMultiple_step_100000 (n : Nat) :
    roundToMultiple n 100000 ≤ roundToMultiple (n + 1) 100000 := by
  simp only [roundToMultiple]
  split_ifs <;> omega

theorem mono_of_step (f : Nat → Nat) (hf : ∀ n, f n ≤ f (n + 1)) :
    ∀ {a b : Nat}, a ≤ b → f a ≤ f b := by
  intro a b h
  induction h with
  | refl => exact le_refl _
  | step _ ih => exact le_trans ih (hf _)

theorem roundToMultiple_mono_1000 {a b : Nat} (h : a ≤ b) :
    roundToMultiple a 1000 ≤ roundToMultiple b 1000 :=
  mono_of_step (fun n => roundToMultiple n 1000) roundToMultiple_step_1000 h

theorem roundToMultiple_mono_10000 {a b : Nat} (h : a ≤ b) :
    roundToMultiple a 10000 ≤ roundToMultiple b 10000 :=
  mono_of_step (fun n => roundToMultiple n 10000) roundToMultiple_step_10000 h

theorem roundToMultiple_mono_100000 {a b : Nat} (h : a ≤ b) :
    roundToMultiple a 100000 ≤ roundToMultiple b 100000 :=
  mono_of_step (fun n => roundToMultiple n 100000) roundToMultiple_step_100000 h

theorem roundToMultiple_ge_10000 {r : Nat} (h : 10000 ≤ r) :
    10000 ≤ roundToMultiple r 10000 := by
  have h0 : roundToMultiple 10000 10000 = 10000 := by decide
  calc 10000 = roundToMultiple 10000 10000 := h0.symm
    _ ≤ roundToMultiple r 10000 := roundToMultiple_mono_10000 h

theorem roundToMultiple_ge_100000 {r : Nat} (h : 100000 ≤ r) :
    100000 ≤ roundToMultiple r 100000 := by
  have h0 : roundToMultiple 100000 100000 = 100000 := by decide
  calc 100000 = roundToMultiple 100000 100000 := h0.symm
    _ ≤ roundToMultiple r 100000 := roundToMultiple_mono_100000 h

theorem roundToMultiple_mul_1000 (q : Nat) :
    roundToMultiple (q * 1000) 1000 = q * 1000 := by
  simp only [roundToMultiple]
  split_ifs <;> omega

theorem roundToMultiple_is_multiple_1000 (n : Nat) :
    ∃ q, roundToMultiple n 1000 = q * 1000 := by
  simp only [roundToMultiple]
  split_ifs
  exacts [⟨n / 1000, rfl⟩, ⟨n / 1000 + 1, rfl⟩, ⟨n / 1000, rfl⟩, ⟨n / 1000 + 1, rfl⟩]

theorem roundToMultiple_1000_idem (n : Nat) :
    roundToMultiple (roundToMultiple n 1000) 1000 = roundToMultiple n 1000 := by
  obtain ⟨q, hq⟩ := roundToMultiple_is_multiple_1000 n
  rw [hq, roundToMultiple_mul_1000]

theorem repeatStr_fish_ne_empty (n : Nat) : repeatStr ("🐟") (n + 1) ≠ "" := by
  intro h
  have hd := congrArg String.data h
  rw [show repeatStr ("🐟") (n + 1) = ("🐟") ++ repeatStr ("🐟") n from rfl,
    String.data_append] at hd
  simp at hd

theorem repeatStr_or_min (c : Nat) :
    (if repeatStr ("🐟") c = "" then ("🐟") else repeatStr ("🐟") c)
      = repeatStr ("🐟") (max 1 c) := by
  cases c with
  | zero => decide
  | succ n =>
      rw [if_neg (repeatStr_fish_ne_empty n)]
      congr 1
      omega

theorem magOfRound_mono {r r' : Nat} (h : r ≤ r') : magOfRound r ≤ magOfRound r' := by
  have h10 : roundToMultiple r 10000 ≤ roundToMultiple r' 10000 :=
    roundToMultiple_mono_10000 h
  have h100 : roundToMultiple (roundToMultiple r 10000) 100000
      ≤ roundToMultiple (roundToMultiple r' 10000) 100000 :=
    roundToMultiple_mono_100000 h10
  by_cases hr : r < 10000
  · by_cases hr' : r' < 10000
    · simp only [magOfRound, if_pos hr, if_pos hr']
      split_ifs <;> omega
    · have hge : 10000 ≤ roundToMultiple r' 10000 :=
        roundToMultiple_ge_10000 (Nat.le_of_not_lt hr')
      simp only [magOfRound, if_pos hr, if_neg hr']
      have hlhs : (if r / 1000 = 0 then 1 else r / 1000) ≤ 9 := by
        split_ifs <;> omega
      by_cases hy : roundToMultiple r' 10000 < 100000
      · rw [if_pos hy]; omega
      · rw [if_neg hy]
        have hge100 : 100000 ≤ roundToMultiple (roundToMultiple r' 10000) 100000 :=
          roundToMultiple_ge_100000 (Nat.le_of_not_lt hy)
        omega
  · have hrr : ¬ r' < 10000 := by omega
    have hgeL : 10000 ≤ roundToMultiple r 10000 :=
      roundToMultiple_ge_10000 (Nat.le_of_not_lt hr)
    simp only [magOfRound, if_neg hr, if_neg hrr]
    by_cases hy : roundToMultiple r 10000 < 100000
    · by_cases hy' : roundToMultiple r' 10000 < 100000
      · rw [if_pos hy, if_pos hy']; omega
      · rw [if_pos hy, if_neg hy']
        have hge100 : 100000 ≤ roundToMultiple (roundToMultiple r' 10000) 100000 :=
          roundToMultiple_ge_100000 (Nat.le_of_not_lt hy')
        omega
    · have hy' : ¬ roundToMultiple r' 10000 < 100000 := by omega
      rw [if_neg hy, if_neg hy']
      omega

theorem value_to_emojis_int_eq_render (v : Int) :
    value_to_emojis_int v = renderMagnitude (emojiMagnitude v) := by
  by_cases hv : v < 0
  · simp [value_to_emojis_int, emojiMagnitude, renderMagnitude, hv]
  · simp only [value_to_emojis_int, emojiMagnitude, if_neg hv]
    by_cases h1 : roundToMultiple v.toNat 1000 < 10000
    · rw [if_pos h1]
      simp only [magOfRound, if_pos h1]
      by_cases hc : roundToMultiple v.toNat 1000 / 1000 = 0
      · rw [hc, if_pos rfl]
        decide
      · obtain ⟨m, hm⟩ : ∃ m, roundToMultiple v.toNat 1000 / 1000 = m + 1 :=
          ⟨roundToMultiple v.toNat 1000 / 1000 - 1, by omega⟩
        have h9 : m + 1 ≤ 9 := by omega
        rw [hm, if_neg (repeatStr_fish_ne_empty m), if_neg (by omega)]
        simp only [renderMagnitude]
        rw [if_neg (by omega), if_pos h9]
    · have hgeY : 10000 ≤ roundToMultiple (roundToMultiple v.toNat 1000) 10000 :=
        roundToMultiple_ge_10000 (by omega)
      rw [if_neg h1]
      simp only [magOfRound, if_neg h1]
      by_cases h2 : roundToMultiple (roundToMultiple v.toNat 1000) 10000 < 100000
      · have hc1 : 1 ≤ roundToMultiple (roundToMultiple v.toNat 1000) 10000 / 10000 := by
          omega
        have hc9 : roundToMultiple (roundToMultiple v.toNat 1000) 10000 / 10000 ≤ 9 := by
          omega
        rw [if_pos h2, if_pos h2]
        simp only [renderMagnitude]
        rw [if_neg (by omega), if_neg (by omega), if_pos (by omega)]
        congr 1
        omega
      · have hgeZ : 100000 ≤
            roundToMultiple (roundToMultiple (roundToMultiple v.toNat 1000) 10000) 100000 :=
          roundToMultiple_ge_100000 (by omega)
        have hc1 : 1 ≤
            roundToMultiple (roundToMultiple (roundToMultiple v.toNat 1000) 10000) 100000
              / 100000 := by omega
        rw [if_neg h2, if_neg h2]
        simp only [renderMagnitude]
        rw [if_neg (by omega), if_neg (by omega), if_neg (by omega)]
        congr 1
        omega

/-- C5 counterexample: at value 0 the code renders one tier-1 symbol
("🐟"), while the claim as stated (minimum one symbol only for positive
values, zero symbols per full thousand of the rounded value 0) renders
the empty string. -/
theorem value_to_emojis_zero_counterexample :
    value_to_emojis_int 0 = ("🐟") ∧ claimed_value_to_emojis 0 = ("") ∧
      ¬ value_to_emojis_int 0 = claimed_value_to_emojis 0 :=
  ⟨by decide, by decide, by decide⟩

/-- C5 amended: the tiering is as claimed except that the minimum of one
tier-1 symbol applies to every non-negative value, including 0: negative
values render empty; with r the value rounded to the nearest 1,000
(ties to even, as Python's round), values with r below 10,000 render one
tier-1 symbol per full thousand of r but at least one; otherwise with
r2 = r rounded to the nearest 10,000, if r2 is below 100,000 one tier-2
symbol per ten-thousand of r2 is rendered; otherwise one tier-3 symbol
per hundred-thousand of r2 rounded to the nearest 100,000. -/
theorem value_to_emojis_tiering_amended :
    ∀ v : Int, value_to_emojis_int v = amended_value_to_emojis v := by
  intro v
  by_cases hv : v < 0
  · simp [value_to_emojis_int, amended_value_to_emojis, hv]
  · simp only [value_to_emojis_int, amended_value_to_emojis, if_neg hv]
    by_cases h1 : roundToMultiple v.toNat 1000 < 10000
    · rw [if_pos h1, if_pos h1]
      exact repeatStr_or_min _
    · rw [if_neg h1, if_neg h1]

/-- C6: the tiering is monotone non-decreasing in magnitude — for
non-negative a ≤ b the magnitude indicated by the rendered output (its
tier and symbol count, read off by `renderMagnitude`) does not decrease
— and idempotent under re-rounding: applying the tiering to the
already-rounded boundary value yields the same output as applying it
once. -/
theorem value_to_emojis_monotone_idempotent :
    (∀ a b : Int, 0 ≤ a → a ≤ b → emojiMagnitude a ≤ emojiMagnitude b) ∧
    (∀ v : Int, value_to_emojis_int v = renderMagnitude (emojiMagnitude v)) ∧
    (∀ v : Int, 0 ≤ v →
      value_to_emojis_int ((roundToMultiple v.toNat 1000 : Nat) : Int)
        = value_to_emojis_int v) := by
  refine ⟨?_, value_to_emojis_int_eq_render, ?_⟩
  · intro a b ha hab
    have hb : (0 : Int) ≤ b := le_trans ha hab
    simp only [emojiMagnitude, if_neg (not_lt.mpr ha), if_neg (not_lt.mpr hb)]
    exact magOfRound_mono (roundToMultiple_mono_1000 (by omega))
  · intro v hv
    have h0 : (0 : Int) ≤ ((roundToMultiple v.toNat 1000 : Nat) : Int) :=
      Int.natCast_nonneg _
    simp only [value_to_emojis_int, if_neg (not_lt.mpr h0), if_neg (not_lt.mpr hv)]
    have ht : ((roundToMultiple v.toNat 1000 : Nat) : Int).toNat
        = roundToMultiple v.toNat 1000 := by omega
    rw [ht, roundToMultiple_1000_idem]

/-- C6 witness: concrete instances of monotonicity (500 vs 20000), the
render link, and idempotence at 500. -/
theorem value_to_emojis_monotone_idempotent_witness :
    emojiMagnitude 500 ≤ emojiMagnitude 20000 ∧
    value_to_emojis_int 20000 = renderMagnitude (emojiMagnitude 20000) ∧
    value_to_emojis_int ((roundToMultiple (Int.toNat 500) 1000 : Nat) : Int)
      = value_to_emojis_int 500 :=
  ⟨value_to_emojis_monotone_idempotent.1 500 20000 (by decide) (by decide),
   value_to_emojis_monotone_idempotent.2.1 20000,
   value_to_emojis_monotone_idempotent.2.2 500 (by decide)⟩

/-- C4: with explicit reserves the LP conversion returns exactly the
proportional amounts `(lp * pooled_eth / total_lp, lp * pooled_beans /
total_lp)`; the invalid-input `ValueError` is raised if and only if no
stats source is supplied and at least one explicit reserve is missing;
and for positive reserves (and a positive LP amount, without which the
quotient of the two results is undefined) the result is proportional:
`asset(lp) / asset(2 * lp) = 1 / 2` for both components. -/
theorem lp_eq_values_spec :
    (∀ lp tl pe pb : ℚ, tl ≠ 0 →
      lp_eq_values lp (some tl) (some pe) (some pb) none
        = Except.ok (lp * pe / tl, lp * pb / tl)) ∧
    (∀ (lp : ℚ) (tl pe pb : Option ℚ) (client : Option SeasonStats),
      lp_eq_values lp tl pe pb client = Except.error PyErr.valueError ↔
        client = none ∧ (tl = none ∨ pe = none ∨ pb = none)) ∧
    (∀ lp tl pe pb : ℚ, 0 < tl → 0 < pe → 0 < pb → 0 < lp →
      ∃ a b a2 b2,
        lp_eq_values lp (some tl) (some pe) (some pb) none = Except.ok (a, b) ∧
        lp_eq_values (2 * lp) (some tl) (some pe) (some pb) none = Except.ok (a2, b2) ∧
        a / a2 = 1 / 2 ∧ b / b2 = 1 / 2) := by
  refine ⟨?_, ?_, ?_⟩
  · intro lp tl pe pb h
    simp only [lp_eq_values]
    rw [if_neg h, mul_div_assoc, mul_div_assoc]
  · intro lp tl pe pb client
    rcases client with _ | stats
    · rcases tl with _ | tlv <;> rcases pe with _ | pev <;> rcases pb with _ | pbv <;>
        simp [lp_eq_values] <;> split_ifs <;> simp
    · simp only [lp_eq_values]
      split_ifs <;> simp
  · intro lp tl pe pb htl hpe hpb hlp
    refine ⟨lp * (pe / tl), lp * (pb / tl), 2 * lp * (pe / tl), 2 * lp * (pb / tl),
      ?_, ?_, ?_, ?_⟩
    · simp only [lp_eq_values]
      rw [if_neg (ne_of_gt htl)]
    · simp only [lp_eq_values]
      rw [if_neg (ne_of_gt htl)]
    · rw [div_eq_div_iff (by positivity) (by norm_num)]
      ring
    · rw [div_eq_div_iff (by positivity) (by norm_num)]
      ring

/-- C4 witness: reserves (total 2, eth 4, beans 6) and lp 1: the
conversion succeeds, doubling lp doubles both outputs. -/
theorem lp_eq_values_spec_witness :
    (lp_eq_values 1 (some 2) (some 4) (some 6) none
        = Except.ok ((1 : ℚ) * 4 / 2, (1 : ℚ) * 6 / 2)) ∧
    ∃ a b a2 b2 : ℚ,
      lp_eq_values 1 (some 2) (some 4) (some 6) none = Except.ok (a, b) ∧
      lp_eq_values (2 * 1) (some 2) (some 4) (some 6) none = Except.ok (a2, b2) ∧
      a / a2 = 1 / 2 ∧ b / b2 = 1 / 2 :=
  ⟨lp_eq_values_spec.1 1 2 4 6 (by norm_num),
   lp_eq_values_spec.2.2 1 2 4 6 (by norm_num) (by norm_num) (by norm_num) (by norm_num)⟩

/-- C10: the LP conversion validates only the presence of its inputs,
not their values: with explicit reserves and a zero total LP supply the
unguarded division raises `ZeroDivisionError` — not the documented
invalid-input `ValueError` — and with all three reserves supplied the
call succeeds exactly when the total LP supply is nonzero; the same
zero-division behavior occurs through the stats source. -/
theorem lp_eq_values_zero_division :
    (∀ lp pe pb : ℚ,
      lp_eq_values lp (some 0) (some pe) (some pb) none
        = Except.error PyErr.zeroDivisionError) ∧
    (∀ lp tl pe pb : ℚ,
      lp_eq_values lp (some tl) (some pe) (some pb) none
          = Except.error PyErr.zeroDivisionError ↔ tl = 0) ∧
    (∀ lp tl pe pb : ℚ,
      (∃ r, lp_eq_values lp (some tl) (some pe) (some pb) none = Except.ok r) ↔ tl ≠ 0) ∧
    (∀ (lp : ℚ) (stats : SeasonStats),
      lp_eq_values lp none none none (some stats)
          = Except.error PyErr.zeroDivisionError ↔ stats.lp = 0) := by
  refine ⟨?_, ?_, ?_, ?_⟩
  · intro lp pe pb
    simp [lp_eq_values]
  · intro lp tl pe pb
    simp only [lp_eq_values]
    split_ifs with h <;> simp [h]
  · intro lp tl pe pb
    simp only [lp_eq_values]
    split_ifs with h <;> simp [h]
  · intro lp stats
    simp only [lp_eq_values]
    split_ifs with h <;> simp [h]

theorem foldl_pickLaterDeposit_some (logs : List EventLog) :
    ∀ b : EventLog, ∃ d, logs.foldl pickLaterDeposit (some b) = some d ∧
      b.logIndex ≤ d.logIndex ∧
      (d = b ∨ (d ∈ logs ∧ d.event = ("BeanDeposit"))) := by
  induction logs with
  | nil => intro b; exact ⟨b, rfl, le_refl _, Or.inl rfl⟩
  | cons x xs ih =>
      intro b
      show ∃ d, xs.foldl pickLaterDeposit (pickLaterDeposit (some b) x) = some d ∧ _
      by_cases hx : x.event = ("BeanDeposit")
      · by_cases hgt : x.logIndex > b.logIndex
        · obtain ⟨d, hd, hle, hprov⟩ := ih x
          refine ⟨d, ?_, by omega, ?_⟩
          · rw [show pickLaterDeposit (some b) x = some x by
              simp [pickLaterDeposit, hx, hgt]]
            exact hd
          · rcases hprov with rfl | ⟨hmem, hdep⟩
            · exact Or.inr ⟨List.mem_cons_self _ _, hx⟩
            · exact Or.inr ⟨List.mem_cons_of_mem _ hmem, hdep⟩
        · obtain ⟨d, hd, hle, hprov⟩ := ih b
          refine ⟨d, ?_, hle, ?_⟩
          · rw [show pickLaterDeposit (some b) x = some b by
              simp [pickLaterDeposit, hx, hgt]]
            exact hd
          · rcases hprov with rfl | ⟨hmem, hdep⟩
            · exact Or.inl rfl
            · exact Or.inr ⟨List.mem_cons_of_mem _ hmem, hdep⟩
      · obtain ⟨d, hd, hle, hprov⟩ := ih b
        refine ⟨d, ?_, hle, ?_⟩
        · rw [show pickLaterDeposit (some b) x = some b by
            simp [pickLaterDeposit, hx]]
          exact hd
        · rcases hprov with rfl | ⟨hmem, hdep⟩
          · exact Or.inl rfl
          · exact Or.inr ⟨List.mem_cons_of_mem _ hmem, hdep⟩

theorem foldl_pickLaterDeposit_max (logs : List EventLog) :
    ∀ (acc : Option EventLog) (d : EventLog),
      logs.foldl pickLaterDeposit acc = some d →
      ∀ l ∈ logs, l.event = ("BeanDeposit") → l.logIndex ≤ d.logIndex := by
  induction logs with
  | nil => intro acc d _ l hl; cases hl
  | cons x xs ih =>
      intro acc d hfold l hl hdep
      rcases List.mem_cons.mp hl with rfl | hmem
      · have hstep : ∃ b2, pickLaterDeposit acc l = some b2 ∧ l.logIndex ≤ b2.logIndex := by
          cases acc with
          | none => exact ⟨l, by simp [pickLaterDeposit, hdep], le_refl _⟩
          | some b =>
              by_cases hgt : l.logIndex > b.logIndex
              · exact ⟨l, by simp [pickLaterDeposit, hdep, hgt], le_refl _⟩
              · exact ⟨b, by simp [pickLaterDeposit, hdep, hgt], by omega⟩
        obtain ⟨b2, hb2, hlb⟩ := hstep
        obtain ⟨d2, hd2, hle2, _⟩ := foldl_pickLaterDeposit_some xs b2
        have hfold2 : xs.foldl pickLaterDeposit (some b2) = some d := by
          have := hfold
          rw [List.foldl_cons, hb2] at this
          exact this
        have hdd : d2 = d := by
          rw [hfold2] at hd2
          exact Option.some.inj hd2.symm
        rw [hdd] at hle2
        omega
      · exact ih (pickLaterDeposit acc x) d hfold l hmem hdep

theorem foldl_pickLaterDeposit_none (logs : List EventLog) :
    ∀ acc : Option EventLog, logs.foldl pickLaterDeposit acc = none →
      acc = none ∧ ∀ l ∈ logs, l.event ≠ ("BeanDeposit") := by
  induction logs with
  | nil => intro acc h; exact ⟨h, fun l hl => (by cases hl)⟩
  | cons x xs ih =>
      intro acc hfold
      rw [List.foldl_cons] at hfold
      obtain ⟨hstep, hrest⟩ := ih _ hfold
      have hxdep : ¬ x.event = ("BeanDeposit") := by
        intro hx
        cases acc with
        | none => simp [pickLaterDeposit, hx] at hstep
        | some b =>
            rw [show pickLaterDeposit (some b) x
                = if x.logIndex > b.logIndex then some x else some b by
              simp [pickLaterDeposit, hx]] at hstep
            split at hstep <;> cases hstep
      have hacc : acc = none := by
        rw [show pickLaterDeposit acc x = acc by simp [pickLaterDeposit, hxdep]] at hstep
        exact hstep
      refine ⟨hacc, fun l hl => ?_⟩
      rcases List.mem_cons.mp hl with rfl | hmem
      · exact hxdep
      · exact hrest l hmem

theorem lastBeanDeposit_eq_none (logs : List EventLog)
    (h : ∀ l ∈ logs, l.event ≠ ("BeanDeposit")) : lastBeanDeposit logs = none := by
  unfold lastBeanDeposit
  induction logs with
  | nil => rfl
  | cons x xs ih =>
      rw [List.foldl_cons,
        show pickLaterDeposit none x = none by
          simp [pickLaterDeposit, h x (List.mem_cons_self _ _)]]
      exact ih (fun l hl => h l (List.mem_cons_of_mem _ hl))

theorem foldl_pickLaterDeposit_mem (logs : List EventLog) :
    ∀ d : EventLog, logs.foldl pickLaterDeposit none = some d →
      d ∈ logs ∧ d.event = ("BeanDeposit") := by
  induction logs with
  | nil => intro d h; cases h
  | cons x xs ih =>
      intro d hfold
      rw [List.foldl_cons] at hfold
      by_cases hx : x.event = ("BeanDeposit")
      · rw [show pickLaterDeposit none x = some x by simp [pickLaterDeposit, hx]] at hfold
        obtain ⟨d2, hd2, _, hprov⟩ := foldl_pickLaterDeposit_some xs x
        have hdd : d2 = d := by
          rw [hfold] at hd2
          exact Option.some.inj hd2.symm
        subst hdd
        rcases hprov with rfl | ⟨hmem, hdep⟩
        · exact ⟨List.mem_cons_self _ _, hx⟩
        · exact ⟨List.mem_cons_of_mem _ hmem, hdep⟩
      · rw [show pickLaterDeposit none x = none by simp [pickLaterDeposit, hx]] at hfold
        obtain ⟨hmem, hdep⟩ := ih d hfold
        exact ⟨List.mem_cons_of_mem _ hmem, hdep⟩

/-- The representative selected by the pruning pass exists whenever some
deposit log is present, is itself a deposit log from the group, and has
the greatest log position among all deposit logs. -/
theorem lastBeanDeposit_spec (logs : List EventLog) (x : EventLog)
    (hx : x ∈ logs) (hdep : x.event = ("BeanDeposit")) :
    ∃ d, lastBeanDeposit logs = some d ∧ d ∈ logs ∧ d.event = ("BeanDeposit") ∧
      ∀ l ∈ logs, l.event = ("BeanDeposit") → l.logIndex ≤ d.logIndex := by
  cases hld : lastBeanDeposit logs with
  | none =>
      exact absurd hdep ((foldl_pickLaterDeposit_none logs none hld).2 x hx)
  | some d =>
      obtain ⟨hmem, hd⟩ := foldl_pickLaterDeposit_mem logs d hld
      exact ⟨d, rfl, hmem, hd, foldl_pickLaterDeposit_max logs none d hld⟩

theorem silo_fold_error_of_none (bp : ℚ) (stats : SeasonStats) :
    ∀ (l : List (Option EventLog)) (st : SiloLocals), none ∈ l →
      ∃ e, silo_fold bp stats st l = Except.error e := by
  intro l
  induction l with
  | nil => intro st h; cases h
  | cons x xs ih =>
      intro st h
      cases x with
      | none => exact ⟨PyErr.noneDeref, rfl⟩
      | some y =>
          have hxs : none ∈ xs := by
            rcases List.mem_cons.mp h with h1 | h2
            · exact Option.noConfusion h1
            · exact h2
          cases hstep : silo_log_step bp stats st y with
          | error e => exact ⟨e, by simp [silo_fold, hstep]⟩
          | ok st1 =>
              obtain ⟨e, he⟩ := ih st1 hxs
              exact ⟨e, by simp [silo_fold, hstep, he]⟩

theorem silo_conversion_str_error (event_logs : List (Option EventLog)) (bp : ℚ)
    (stats : SeasonStats) (e : PyErr)
    (h : silo_fold bp stats initSiloLocals event_logs = Except.error e) :
    silo_conversion_str event_logs bp stats = Except.error e := by
  unfold silo_conversion_str
  rw [h]

theorem beanstalk_emit_loop_error_of_none (ep bp : ℚ) (stats : SeasonStats) :
    ∀ l : List (Option EventLog), none ∈ l →
      (beanstalk_emit_loop ep bp stats l).2.isSome = true := by
  intro l
  induction l with
  | nil => intro h; cases h
  | cons x xs ih =>
      intro h
      cases x with
      | none => rfl
      | some y =>
          have hxs : none ∈ xs := by
            rcases List.mem_cons.mp h with h1 | h2
            · exact Option.noConfusion h1
            · exact h2
          cases hstep : default_beanstalk_event_str y ep bp stats with
          | error e => simp [beanstalk_emit_loop, hstep]
          | ok p =>
              obtain ⟨s, w⟩ := p
              have htail := ih hxs
              simp only [beanstalk_emit_loop, hstep]
              exact htail

/-- C3: in a transaction group with at least one BeanDeposit log, at
increasing log positions, the pruning pass selects exactly one
representative — a BeanDeposit log of the group whose log position is
greatest — removes every BeanDeposit log from the group and keeps all
others; and when the method-signature prefix matches a silo-conversion
signature the representative is re-attached and the handler pushes
exactly one message: the silo-conversion string of the re-attached
group. -/
theorem silo_conversion_prune_spec :
    ∀ (txn_input : String) (silo_conversion_sigs bean_deposit_sigs : List String)
      (eth_price bean_price : ℚ) (stats : SeasonStats) (event_logs : List EventLog)
      (x : EventLog),
      x ∈ event_logs → x.event = ("BeanDeposit") →
      (event_logs.filter (fun l => l.event == ("BeanDeposit"))).Pairwise
        (fun a b => a.logIndex < b.logIndex) →
      multi_sig_compare (txn_input.take 9) silo_conversion_sigs = true →
      ∃ d, lastBeanDeposit event_logs = some d ∧ d ∈ event_logs ∧
        d.event = ("BeanDeposit") ∧
        (∀ l ∈ event_logs, l.event = ("BeanDeposit") → l.logIndex ≤ d.logIndex) ∧
        (∀ l ∈ pruneBeanDeposits event_logs, l.event ≠ ("BeanDeposit")) ∧
        (∀ l ∈ event_logs, l.event ≠ ("BeanDeposit") → l ∈ pruneBeanDeposits event_logs) ∧
        (∀ s, silo_conversion_str ((pruneBeanDeposits event_logs).map some ++ [some d])
              bean_price stats = Except.ok s →
          beanstalk_handle_txn_logs txn_input silo_conversion_sigs bean_deposit_sigs
              eth_price bean_price stats event_logs = ([s], none)) := by
  intro ti ss bs ep bp stats logs x hx hdep hpair hsig
  obtain ⟨d, hld, hmem, hd, hmax⟩ := lastBeanDeposit_spec logs x hx hdep
  refine ⟨d, hld, hmem, hd, hmax, ?_, ?_, ?_⟩
  · intro l hl
    have hm := List.mem_filter.mp hl
    simpa using hm.2
  · intro l hl hne
    exact List.mem_filter.mpr ⟨hl, by simpa using hne⟩
  · intro s hs
    simp [beanstalk_handle_txn_logs, hsig, hld, hs]

/-- C9: when the transaction's method-signature prefix matches a
silo-conversion or bean-deposit signature but the group contains no
BeanDeposit log, the retained representative is `None`; it is appended
to the group and the classification step dereferences it, so the
handler's classification path always fails — it is error-free only if
such a group contains at least one BeanDeposit log. -/
theorem handler_requires_bean_deposit :
    ∀ (txn_input : String) (silo_conversion_sigs bean_deposit_sigs : List String)
      (eth_price bean_price : ℚ) (stats : SeasonStats) (event_logs : List EventLog),
      (multi_sig_compare (txn_input.take 9) silo_conversion_sigs = true ∨
        multi_sig_compare (txn_input.take 9) bean_deposit_sigs = true) →
      (∀ l ∈ event_logs, l.event ≠ ("BeanDeposit")) →
      lastBeanDeposit event_logs = none ∧
      (beanstalk_handle_txn_logs txn_input silo_conversion_sigs bean_deposit_sigs
          eth_price bean_price stats event_logs).2.isSome = true := by
  intro ti ss bs ep bp stats logs hsig hnodep
  have hld : lastBeanDeposit logs = none := lastBeanDeposit_eq_none logs hnodep
  refine ⟨hld, ?_⟩
  have hmemnone : (none : Option EventLog)
      ∈ (pruneBeanDeposits logs).map some ++ [(none : Option EventLog)] := by
    simp
  by_cases hs : multi_sig_compare (ti.take 9) ss = true
  · obtain ⟨e, he⟩ := silo_fold_error_of_none bp stats _ initSiloLocals hmemnone
    have herr := silo_conversion_str_error _ bp stats e he
    simp only [beanstalk_handle_txn_logs, hs, hld, if_true]
    rw [herr]
    rfl
  · have hb : multi_sig_compare (ti.take 9) bs = true := by
      rcases hsig with h | h
      · exact absurd h hs
      · exact h
    have hloop := beanstalk_emit_loop_error_of_none ep bp stats
      ((pruneBeanDeposits logs).map some ++ [(none : Option EventLog)]) hmemnone
    simp only [beanstalk_handle_txn_logs, hld]
    rw [if_neg hs, if_pos hb]
    exact hloop

/-- C3 witness: the spec scenario — logs BeanDeposit(pos 1),
LPRemove(pos 2), BeanDeposit(pos 3) under a matching silo-conversion
method signature: pruning keeps the position-3 deposit, and exactly one
silo-conversion message is pushed. -/
theorem silo_conversion_prune_spec_witness :
    beanstalk_handle_txn_logs ("0xdeadbeefcafe") [("0xdeadbeefXX")] [] 1 1 ⟨8, 12, 4⟩
        [⟨"BeanDeposit", 1, [(("beans"), 3000000)], ("0xsilo")⟩,
         ⟨"LPRemove", 2, [(("lp"), 2000000000000000000)], ("0xsilo")⟩,
         ⟨"BeanDeposit", 3, [(("beans"), 5000000)], ("0xsilo")⟩]
      = ([("🔄 4.0000 ETH and 6.00 Beans of siloed LP converted to 5.00 siloed Beans ($5.00)\n🐟\n<https://etherscan.io/tx/0xsilo>")],
          none) := by
  obtain ⟨d, hld, _, _, _, _, _, hmain⟩ :=
    silo_conversion_prune_spec ("0xdeadbeefcafe") [("0xdeadbeefXX")] [] 1 1 ⟨8, 12, 4⟩
      [⟨"BeanDeposit", 1, [(("beans"), 3000000)], ("0xsilo")⟩,
       ⟨"LPRemove", 2, [(("lp"), 2000000000000000000)], ("0xsilo")⟩,
       ⟨"BeanDeposit", 3, [(("beans"), 5000000)], ("0xsilo")⟩]
      ⟨"BeanDeposit", 1, [(("beans"), 3000000)], ("0xsilo")⟩
      (by decide) rfl (by decide) (by decide)
  have hd : d = ⟨"BeanDeposit", 3, [(("beans"), 5000000)], ("0xsilo")⟩ := by
    have h2 : lastBeanDeposit
        [⟨"BeanDeposit", 1, [(("beans"), 3000000)], ("0xsilo")⟩,
         ⟨"LPRemove", 2, [(("lp"), 2000000000000000000)], ("0xsilo")⟩,
         ⟨"BeanDeposit", 3, [(("beans"), 5000000)], ("0xsilo")⟩]
        = some ⟨"BeanDeposit", 3, [(("beans"), 5000000)], ("0xsilo")⟩ := by decide
    rw [h2] at hld
    exact (Option.some.inj hld).symm
  subst hd
  exact hmain _ (by with_unfolding_all rfl)

/-- C9 witness: a silo-conversion-signature transaction whose only log
is a Sow: the retained representative is `None` and the handler fails
with an escaped exception. -/
theorem handler_requires_bean_deposit_witness :
    lastBeanDeposit
        [⟨"Sow", 1, [(("beans"), 2000000), (("pods"), 4000000)], ("0xsow")⟩] = none ∧
    (beanstalk_handle_txn_logs ("0xdeadbeefcafe") [("0xdeadbeefXX")] [] 1 1 ⟨8, 12, 4⟩
        [⟨"Sow", 1, [(("beans"), 2000000), (("pods"), 4000000)], ("0xsow")⟩]).2.isSome
      = true :=
  handler_requires_bean_deposit ("0xdeadbeefcafe") [("0xdeadbeefXX")] [] 1 1 ⟨8, 12, 4⟩
    [⟨"Sow", 1, [(("beans"), 2000000), (("pods"), 4000000)], ("0xsow")⟩]
    (Or.inl (by decide)) (by decide)

theorem strEndsWith_append (p t : String) : strEndsWith (p ++ t) t = true := by
  unfold strEndsWith
  rw [String.data_append]
  exact List.isSuffixOf_iff_suffix.mpr (List.suffix_append p.data t.data)

theorem endsWith_link_marker (b txHash : String) :
    strEndsWith (b ++ etherscanLink txHash ++ blankLineMarker)
      (etherscanLink txHash ++ blankLineMarker) = true := by
  rw [String.append_assoc]
  exact strEndsWith_append _ _

theorem pool_event_finish_suffix (body : Option String) (txHash : String) :
    pool_event_finish body txHash = ("") ∨
      strEndsWith (pool_event_finish body txHash)
        (etherscanLink txHash ++ blankLineMarker) = true := by
  cases body with
  | none => exact Or.inl rfl
  | some b => exact Or.inr (endsWith_link_marker b txHash)

theorem lp_eq_values_graph_ok (lp : ℚ) (stats : SeasonStats) (h : stats.lp ≠ 0) :
    lp_eq_values lp none none none (some stats)
      = Except.ok (lp * (stats.pooledEth / stats.lp),
          lp * (stats.pooledBeans / stats.lp)) := by
  simp only [lp_eq_values]
  rw [if_neg h]

/-- C7 counterexample: a concrete silo-conversion string is non-empty
but does not end with the blank-line marker suffix claimed for every
renderer — the source omits the marker in `silo_conversion_str`. -/
theorem silo_conversion_marker_counterexample :
    (silo_conversion_str
        [some ⟨"LPRemove", 2, [(("lp"), 2000000000000000000)], ("0xsilo")⟩,
         some ⟨"BeanDeposit", 3, [(("beans"), 5000000)], ("0xsilo")⟩] 1 ⟨8, 12, 4⟩).map
        (fun s => strEndsWith s blankLineMarker) = Except.ok false ∧
    (silo_conversion_str
        [some ⟨"LPRemove", 2, [(("lp"), 2000000000000000000)], ("0xsilo")⟩,
         some ⟨"BeanDeposit", 3, [(("beans"), 5000000)], ("0xsilo")⟩] 1 ⟨8, 12, 4⟩).map
        (fun s => s == ("")) = Except.ok false :=
  ⟨by with_unfolding_all rfl, by with_unfolding_all rfl⟩

/-- C7 amended: pool and beanstalk event strings are either empty or end
with the etherscan link for the log's transaction hash followed by the
blank-line marker; silo-conversion strings end with the etherscan link
of the first log's transaction hash but without the blank-line
marker. -/
theorem event_str_link_suffix_amended :
    (∀ (event_log : EventLog) (eth_price bean_price : ℚ),
      default_pool_event_str event_log eth_price bean_price = ("") ∨
        strEndsWith (default_pool_event_str event_log eth_price bean_price)
          (etherscanLink event_log.transactionHash ++ blankLineMarker) = true) ∧
    (∀ (event_log : EventLog) (eth_price bean_price : ℚ) (stats : SeasonStats)
        (s : String) (w : Bool),
      default_beanstalk_event_str event_log eth_price bean_price stats
          = Except.ok (s, w) →
        s = ("") ∨
          strEndsWith s (etherscanLink event_log.transactionHash ++ blankLineMarker)
            = true) ∧
    (∀ (event_logs : List (Option EventLog)) (bean_price : ℚ) (stats : SeasonStats)
        (s : String),
      silo_conversion_str event_logs bean_price stats = Except.ok s →
        ∃ l, event_logs.head? = some (some l) ∧
          strEndsWith s (etherscanLink l.transactionHash) = true) := by
  refine ⟨?_, ?_, ?_⟩
  · intro log ep bp
    exact pool_event_finish_suffix _ _
  · intro log ep bp stats s w h
    simp only [default_beanstalk_event_str] at h
    cases hlp : lp_eq_values (lp_to_float (argsGet log.args ("lp"))) none none none
        (some stats) with
    | error e => rw [hlp] at h; cases h
    | ok pr =>
        obtain ⟨lp_eth, lp_beans⟩ := pr
        rw [hlp] at h
        split_ifs at h
        all_goals (
          injection h with hpair
          injection hpair with hA hB
          subst hA
          first
            | exact Or.inl rfl
            | exact Or.inr (endsWith_link_marker _ _))
  · intro logs bp stats s h
    simp only [silo_conversion_str] at h
    cases hf : silo_fold bp stats initSiloLocals logs with
    | error e => rw [hf] at h; cases h
    | ok st =>
        rw [hf] at h
        simp only [] at h
        cases hb : silo_event_str_body st with
        | error e => rw [hb] at h; cases h
        | ok body =>
            rw [hb] at h
            cases hv : st.value with
            | none => rw [hv] at h; cases h
            | some v =>
                rw [hv] at h
                cases hh : logs.head? with
                | none => rw [hh] at h; cases h
                | some ol =>
                    cases ol with
                    | none => rw [hh] at h; cases h
                    | some l =>
                        rw [hh] at h
                        injection h with hA
                        subst hA
                        exact ⟨l, rfl, strEndsWith_append _ _⟩

/-- C7 witness: a concrete Sow notification ends with its transaction's
etherscan link and the blank-line marker. -/
theorem event_str_link_suffix_amended_witness :
    ("🚜 2.00 Beans sown for 4.00 Pods ($2.00)\n🐟\n<https://etherscan.io/tx/0xsow>\n_ _")
        = ("") ∨
      strEndsWith
        ("🚜 2.00 Beans sown for 4.00 Pods ($2.00)\n🐟\n<https://etherscan.io/tx/0xsow>\n_ _")
        (etherscanLink (("0xsow") : String) ++ blankLineMarker) = true :=
  event_str_link_suffix_amended.2.1
    ⟨"Sow", 1, [(("beans"), 2000000), (("pods"), 4000000)], ("0xsow")⟩ 1 1 ⟨8, 12, 4⟩
    ("🚜 2.00 Beans sown for 4.00 Pods ($2.00)\n🐟\n<https://etherscan.io/tx/0xsow>\n_ _")
    false (by with_unfolding_all rfl)

/-- C8 counterexample: for an unrecognized event kind the pool renderer
does not return the empty string — it falls through and returns the bare
link-and-marker boilerplate (which the pool monitor then sends), and no
warning is logged on this path. -/
theorem pool_unrecognized_counterexample :
    (¬ (("FooKind") = ("Mint") ∨ ("FooKind") = ("Burn") ∨ ("FooKind") = ("Swap"))) ∧
    default_pool_event_str ⟨"FooKind", 1, [], ("0xabc")⟩ 1 1
      = ("\n<https://etherscan.io/tx/0xabc>\n_ _") ∧
    ¬ default_pool_event_str ⟨"FooKind", 1, [], ("0xabc")⟩ 1 1 = ("") :=
  ⟨by decide, by with_unfolding_all rfl, by with_unfolding_all decide⟩

/-- C8 amended: the beanstalk renderer suppresses BeanRemove/LPRemove
(empty string, no warning) and unrecognized kinds (empty string, warning
logged), as claimed; the pool renderer, however, renders an unrecognized
kind as the non-empty link-and-marker boilerplate rather than the empty
string, and logs no warning. -/
theorem unrecognized_suppression_amended :
    (∀ (event_log : EventLog) (eth_price bean_price : ℚ),
      event_log.event ∉ [("Mint"), ("Burn"), ("Swap")] →
        default_pool_event_str event_log eth_price bean_price
          = etherscanLink event_log.transactionHash ++ blankLineMarker) ∧
    (∀ (event_log : EventLog) (eth_price bean_price : ℚ) (stats : SeasonStats),
      stats.lp ≠ 0 →
      (event_log.event = ("BeanRemove") ∨ event_log.event = ("LPRemove")) →
        default_beanstalk_event_str event_log eth_price bean_price stats
          = Except.ok (("") , false)) ∧
    (∀ (event_log : EventLog) (eth_price bean_price : ℚ) (stats : SeasonStats),
      stats.lp ≠ 0 →
      event_log.event ∉ [("BeanRemove"), ("LPRemove"), ("LPDeposit"), ("LPWithdraw"),
        ("LPClaim"), ("BeanDeposit"), ("BeanWithdraw"), ("BeanClaim"), ("Sow")] →
        default_beanstalk_event_str event_log eth_price bean_price stats
          = Except.ok (("") , true)) := by
  refine ⟨?_, ?_, ?_⟩
  · intro log ep bp hne
    simp only [List.mem_cons, List.mem_singleton, not_or] at hne
    obtain ⟨h1, h2, h3⟩ := hne
    simp only [default_pool_event_str]
    rw [if_neg (by tauto), if_neg h3.1]
    simp only [pool_event_finish]
    rw [String.empty_append]
  · intro log ep bp stats hlp hev
    simp only [default_beanstalk_event_str]
    rw [lp_eq_values_graph_ok _ _ hlp]
    simp only []
    rw [if_pos hev]
  · intro log ep bp stats hlp hne
    simp only [List.mem_cons, List.mem_singleton, not_or] at hne
    obtain ⟨h1, h2, h3, h4, h5, h6, h7, h8, h9⟩ := hne
    simp only [default_beanstalk_event_str]
    rw [lp_eq_values_graph_ok _ _ hlp]
    simp only []
    rw [if_neg (by tauto), if_neg (by tauto), if_neg (by tauto), if_neg h9.1]

/-- C8 witness: a concrete unrecognized beanstalk event renders as the
empty string with the warning flag set. -/
theorem unrecognized_suppression_amended_witness :
    default_beanstalk_event_str ⟨"FooKind", 1, [], ("0xfoo")⟩ 1 1 ⟨8, 12, 4⟩
      = Except.ok (("") , true) :=
  unrecognized_suppression_amended.2.2 ⟨"FooKind", 1, [], ("0xfoo")⟩ 1 1 ⟨8, 12, 4⟩
    (by norm_num) (by decide)
